import Mathlib

set_option autoImplicit false

namespace Libplacebo

/-!
Shallow embedding of the command-issuer and resource-state tracker of the
libplacebo Vulkan GPU backend (`src/vulkan/gpu.h`).  The header declares the
structs (`pl_vk`, `pl_tex_vk`, `pl_buf_vk`, `queue_type`, `buffer_op`) and the
operations (`_begin_cmd`, `_end_cmd`, `pl_vk_steal_cmd`, `vk_tex_barrier`,
`vk_tex_deref`, `vk_tex_poll`, `vk_tex_export`, `vk_buf_write`,
`vk_buf_barrier`, `vk_buf_flush`, `vk_buf_poll`); the implementations are not
part of the given sources, so the operation bodies below are modelled from the
specification text, as noted on each definition.
-/

/-- Queue classes, embedded from `enum queue_type` in `src/vulkan/gpu.h`. -/
inductive queue_type
  | GRAPHICS
  | COMPUTE
  | TRANSFER
  | ANY
deriving DecidableEq

/-- Modelled from the spec: `begin` "returns the currently-recording Command if
its queue class matches `queueClass` (or `queueClass == ANY`)". -/
def queueMatches (req cur : queue_type) : Bool :=
  req == queue_type.ANY || cur == req

/-- Modelled from the spec: the concrete hardware queue class chosen for a
requested queue class when a new command is opened ("a queue chosen for
`queueClass`"); `ANY` is satisfied by the graphics queue. -/
def chooseQueue : queue_type → queue_type
  | queue_type.ANY => queue_type.GRAPHICS
  | q => q

/-- Status of one command, for the single-recorder bookkeeping: a command is
`recording` while it owns the device's recording slot, `submitted` once handed
to a hardware queue, `discarded` when finished without submission, and
`stolen` once `pl_vk_steal_cmd` transferred it out of Issuer ownership. -/
inductive CmdStatus
  | recording
  | submitted
  | discarded
  | stolen
deriving DecidableEq

/-- A command (`struct vk_cmd`): bound to exactly one concrete queue class and
carrying the list of resources it touches (for deferred signal attachment). -/
structure vk_cmd where
  id : Nat
  queue : queue_type
  touched : List Nat
deriving DecidableEq

/-- The per-device Issuer state, embedding the recording slot of `struct
pl_vk` (`struct vk_cmd *cmd`, guarded by the `recording` mutex, so the
operations below are atomic steps).  `statuses` records every command ever
created, `resSig` the signal currently attached to each resource, `queued`
the commands handed to hardware queues, in submission order. -/
structure pl_vk where
  cmd : Option vk_cmd
  statuses : Nat → CmdStatus
  nextCmd : Nat
  resSig : Nat → Option Nat
  nextSig : Nat
  queued : List (Nat × queue_type)

/-- Pointwise update of the command-status table. -/
def setStatus (f : Nat → CmdStatus) (i : Nat) (st : CmdStatus) : Nat → CmdStatus :=
  fun j => if j = i then st else f j

/-- Modelled from the spec: opening a fresh command bound to a queue chosen
for the requested queue class; the new command takes the recording slot. -/
def openCmd (s : pl_vk) (qc : queue_type) : pl_vk × vk_cmd :=
  let c : vk_cmd := { id := s.nextCmd, queue := chooseQueue qc, touched := [] }
  ({ s with cmd := some c,
            statuses := setStatus s.statuses c.id CmdStatus.recording,
            nextCmd := s.nextCmd + 1 }, c)

/-- Modelled from the spec: `_end_cmd` (declared in `src/vulkan/gpu.h`).  If
`submit` is true it finalizes recording, attaches a fresh signal to every
resource the command touched and hands the command to its bound hardware
queue; if false the recorded work is discarded with no submission and no
signal attachment. -/
def _end_cmd (s : pl_vk) (submit : Bool) : pl_vk :=
  match s.cmd with
  | none => s
  | some c =>
    if submit then
      { s with cmd := none,
               statuses := setStatus s.statuses c.id CmdStatus.submitted,
               resSig := fun r => if r ∈ c.touched then some s.nextSig else s.resSig r,
               nextSig := s.nextSig + 1,
               queued := s.queued ++ [(c.id, c.queue)] }
    else
      { s with cmd := none,
               statuses := setStatus s.statuses c.id CmdStatus.discarded }

/-- Modelled from the spec: `_begin_cmd` (declared in `src/vulkan/gpu.h`).
Returns the currently-recording command if its queue class matches the
request (or the request is ANY); otherwise submits the current command (if
any) and opens a new one.  The third component counts the submit-and-reopen
boundaries this call produced. -/
def _begin_cmd (s : pl_vk) (qc : queue_type) : pl_vk × vk_cmd × Nat :=
  match s.cmd with
  | some c =>
    if queueMatches qc c.queue then (s, c, 0)
    else
      let s1 := _end_cmd s true
      let p := openCmd s1 qc
      (p.1, p.2, 1)
  | none =>
    let p := openCmd s qc
    (p.1, p.2, 0)

/-- Modelled from the spec: `pl_vk_steal_cmd` removes the current command from
Issuer ownership, transferring submission responsibility to the caller. -/
def pl_vk_steal_cmd (s : pl_vk) : pl_vk × Option vk_cmd :=
  match s.cmd with
  | none => (s, none)
  | some c =>
    ({ s with cmd := none,
              statuses := setStatus s.statuses c.id CmdStatus.stolen }, some c)

/-- The atomic Issuer operations (each runs under the `recording` mutex of
`struct pl_vk`): begin, end (submit or discard), steal, and recording a
touched resource into the current command. -/
inductive IssuerOp
  | begin (qc : queue_type)
  | endRec (submit : Bool)
  | steal
  | touch (r : Nat)

/-- One atomic Issuer step. -/
def issuerStep (s : pl_vk) : IssuerOp → pl_vk
  | IssuerOp.begin qc => (_begin_cmd s qc).1
  | IssuerOp.endRec b => _end_cmd s b
  | IssuerOp.steal => (pl_vk_steal_cmd s).1
  | IssuerOp.touch r =>
    match s.cmd with
    | none => s
    | some c => { s with cmd := some { c with touched := r :: c.touched } }

/-- The freshly created device: empty recording slot, no commands. -/
def pl_vk_init : pl_vk :=
  { cmd := none,
    statuses := fun _ => CmdStatus.discarded,
    nextCmd := 0,
    resSig := fun _ => none,
    nextSig := 0,
    queued := [] }

/-- At most one command of the device is in `recording` state. -/
def AtMostOneRecording (s : pl_vk) : Prop :=
  ∀ i j, s.statuses i = CmdStatus.recording → s.statuses j = CmdStatus.recording → i = j

/-- Well-formedness of the Issuer state: the recording slot holds a command
with `recording` status and a fresh-bounded id, and every command in
`recording` status is the one in the slot. -/
def IssuerWF (s : pl_vk) : Prop :=
  (∀ c, s.cmd = some c → c.id < s.nextCmd ∧ s.statuses c.id = CmdStatus.recording) ∧
  (∀ i, s.statuses i = CmdStatus.recording → ∃ c, s.cmd = some c ∧ c.id = i)

/-- `VK_IMAGE_LAYOUT_UNDEFINED`: the Vulkan layout meaning the image contents
are undefined (numeric value 0 in the Vulkan headers). -/
def VK_IMAGE_LAYOUT_UNDEFINED : Nat := 0

/-- Per-texture state, embedding the tracked fields of `struct pl_tex_vk`:
reference count `rc`, `held`, `may_invalidate`, the "current" metadata
(`current_layout`, `current_access`, and the owning queue family `qf`), the
guarding signal `sig` (none means no outstanding GPU work), and `ext_sync`
(an exported image).  `resolveAt` models the asynchronous hardware timeline
(the instant the outstanding signal resolves) and `memReleased` whether the
underlying memory slice was released back to the allocator. -/
structure pl_tex_vk where
  rc : Nat
  held : Bool
  may_invalidate : Bool
  current_layout : Nat
  current_access : Nat
  qf : Nat
  sig : Option Nat
  resolveAt : Nat
  memReleased : Bool
  ext_sync : Option Nat
deriving DecidableEq

/-- An image memory barrier record (layouts, access masks and queue families
of the transition). -/
structure VkImageMemoryBarrier where
  srcAccess : Nat
  dstAccess : Nat
  oldLayout : Nat
  newLayout : Nat
  srcQf : Nat
  dstQf : Nat
deriving DecidableEq

/-- Modelled from the spec: `vk_tex_invalidate` marks the texture contents as
not needing preservation (`may_invalidate`). -/
def vk_tex_invalidate (t : pl_tex_vk) : pl_tex_vk :=
  { t with may_invalidate := true }

/-- Modelled from the spec: `vk_tex_barrier` (declared in `src/vulkan/gpu.h`).
Compares the texture's current layout/access/queue-owner against the state
required by the next operation; emits no barrier when the requirement is
already satisfied, otherwise exactly one barrier; when `may_invalidate` is
set (discard) the old contents are not preserved (`oldLayout` is
`VK_IMAGE_LAYOUT_UNDEFINED`).  The state record is updated to the required
state immediately, before GPU completion. -/
def vk_tex_barrier (t : pl_tex_vk) (access layout qfDst : Nat) :
    pl_tex_vk × Option VkImageMemoryBarrier :=
  let discard := t.may_invalidate
  let satisfied := t.current_layout == layout && t.current_access == access &&
    t.qf == qfDst && !discard
  let t' := { t with current_layout := layout, current_access := access,
                     qf := qfDst, may_invalidate := false }
  (t', if satisfied then none
       else some { srcAccess := t.current_access, dstAccess := access,
                   oldLayout := if discard then VK_IMAGE_LAYOUT_UNDEFINED
                                else t.current_layout,
                   newLayout := layout, srcQf := t.qf, dstQf := qfDst })

/-- One barrier request: the layout/access/queue-owner state an operation
declares it requires. -/
structure TexReq where
  access : Nat
  layout : Nat
  qf : Nat
deriving DecidableEq

/-- Folding a sequence of barrier requests over the texture state record. -/
def applyTexReqs (t : pl_tex_vk) (rs : List TexReq) : pl_tex_vk :=
  rs.foldl (fun s r => (vk_tex_barrier s r.access r.layout r.qf).1) t

/-- Modelled from the spec: `vk_tex_deref` (declared in `src/vulkan/gpu.h`).
Decrements the reference count; at zero, if an outstanding signal exists the
release of the memory slice is deferred (queued until the signal resolves),
otherwise the slice is released immediately. -/
def vk_tex_deref (t : pl_tex_vk) : pl_tex_vk :=
  if t.rc ≤ 1 then
    match t.sig with
    | some _ => { t with rc := 0 }
    | none => { t with rc := 0, memReleased := true }
  else { t with rc := t.rc - 1 }

/-- Modelled from the spec: `vk_tex_poll` (declared in `src/vulkan/gpu.h`).
Returns (stillBusy, new state, wake time): with no outstanding signal the
texture is idle; otherwise, if the signal resolves within `timeout` of `now`
the poll observes it resolved (clearing the signal and performing any
deferred slice release), else it reports still-busy after a bounded wait. -/
def vk_tex_poll (t : pl_tex_vk) (now timeout : Nat) : Bool × pl_tex_vk × Nat :=
  match t.sig with
  | none => (false, t, now)
  | some _ =>
    if t.resolveAt ≤ now + timeout then
      (false, { t with sig := none,
                       memReleased := t.memReleased || t.rc == 0 },
       max now t.resolveAt)
    else (true, t, now + timeout)

/-- Modelled from the spec: `vk_tex_export` (declared in `src/vulkan/gpu.h`).
Fails, leaving the state record unchanged, when the texture is already
exported or currently held; otherwise marks the image exported via the given
sync object. -/
def vk_tex_export (t : pl_tex_vk) (sync : Nat) : Bool × pl_tex_vk :=
  if t.ext_sync.isSome || t.held then (false, t)
  else (true, { t with ext_sync := some sync })

/-- The texture lifecycle operations: dereference, and poll at a given
instant with a given timeout. -/
inductive TexLifeOp
  | deref
  | poll (now timeout : Nat)

/-- One texture lifecycle step. -/
def texLifeStep (t : pl_tex_vk) : TexLifeOp → pl_tex_vk
  | TexLifeOp.deref => vk_tex_deref t
  | TexLifeOp.poll now timeout => (vk_tex_poll t now timeout).2.1

/-- A freshly created texture: one reference, optionally guarded by an
in-flight signal resolving at hardware time `ra`, slice not released. -/
def texLifeInit (sig : Option Nat) (ra : Nat) : pl_tex_vk :=
  { rc := 1, held := false, may_invalidate := false, current_layout := 0,
    current_access := 0, qf := 0, sig := sig, resolveAt := ra,
    memReleased := false, ext_sync := none }

/-- The deferred-destruction invariant: the memory slice is released only
once the reference count is zero and no signal is outstanding. -/
def TexLifeInv (t : pl_tex_vk) : Prop :=
  t.memReleased = true → t.rc = 0 ∧ t.sig = none

/-- Embedded from `enum buffer_op` in `src/vulkan/gpu.h`. -/
def BUF_READ : Nat := 1

/-- Embedded from `enum buffer_op` in `src/vulkan/gpu.h`. -/
def BUF_WRITE : Nat := 2

/-- Embedded from `enum buffer_op` in `src/vulkan/gpu.h`. -/
def BUF_EXPORT : Nat := 4

/-- Tests a `buffer_op` flag in a flag set. -/
def hasOp (flags f : Nat) : Bool := (flags &&& f) != 0

/-- Per-buffer state, embedding the tracked fields of `struct pl_buf_vk`:
reference count `rc`, the `writes` counter ("number of queued write
commands"), the "current" access mask, `exported`, `needs_flush`, and the
guarding signal.  `pending` models the identities of the queued but not yet
completed write commands, `flushRanges` the written byte ranges awaiting a
flush, and `resolveAt` the hardware instant the signal resolves. -/
structure pl_buf_vk where
  rc : Nat
  writes : Nat
  pending : List Nat
  current_access : Nat
  exported : Bool
  needs_flush : Bool
  flushRanges : List (Nat × Nat)
  sig : Option Nat
  resolveAt : Nat
deriving DecidableEq

/-- Two byte ranges (offset, size) intersect. -/
def rangesOverlap (a b : Nat × Nat) : Bool :=
  a.1 < b.1 + b.2 && b.1 < a.1 + a.2

/-- Modelled from the spec: `vk_buf_flush` (declared in `src/vulkan/gpu.h`)
flushes visible API writes in the byte range `[offset, offset+size)` of the
buffer; obligations of ranges disjoint from the flushed range remain. -/
def vk_buf_flush (b : pl_buf_vk) (offset size : Nat) : pl_buf_vk :=
  let rem := b.flushRanges.filter (fun r => !rangesOverlap r (offset, size))
  { b with flushRanges := rem, needs_flush := !rem.isEmpty }

/-- Modelled from the spec: `vk_buf_write` (declared in `src/vulkan/gpu.h`)
writes `size` bytes at byte offset `offset`: it queues a write command
(identity `cmdId`) and marks the written range as needing a flush before GPU
commands consume it. -/
def vk_buf_write (b : pl_buf_vk) (offset size cmdId : Nat) : pl_buf_vk :=
  { b with writes := b.writes + 1,
           pending := cmdId :: b.pending,
           needs_flush := true,
           flushRanges := (offset, size) :: b.flushRanges }

/-- Modelled from the spec: `vk_buf_barrier` (declared in `src/vulkan/gpu.h`)
prepares the byte range `[offset, offset+size)` for an operation with the
given access mask and `buffer_op` flags: pending API writes are flushed
first when `needs_flush` is set, the current access is reconciled, and a
write-side barrier queues a write command (identity `cmdId`). -/
def vk_buf_barrier (b : pl_buf_vk) (access offset size flags cmdId : Nat) : pl_buf_vk :=
  let b1 := if b.needs_flush then vk_buf_flush b offset size else b
  let b2 := { b1 with current_access := access }
  if hasOp flags BUF_WRITE then
    { b2 with writes := b2.writes + 1, pending := cmdId :: b2.pending }
  else b2

/-- Modelled from the spec: the completion callback of a queued write
command, decrementing the `writes` counter when that command completes. -/
def buf_write_complete (b : pl_buf_vk) (cmdId : Nat) : pl_buf_vk :=
  if cmdId ∈ b.pending then
    { b with writes := b.writes - 1, pending := b.pending.erase cmdId }
  else b

/-- Modelled from the spec: `vk_buf_poll` (declared in `src/vulkan/gpu.h`),
the buffer analogue of `vk_tex_poll`. -/
def vk_buf_poll (b : pl_buf_vk) (now timeout : Nat) : Bool × pl_buf_vk × Nat :=
  match b.sig with
  | none => (false, b, now)
  | some _ =>
    if b.resolveAt ≤ now + timeout then
      (false, { b with sig := none }, max now b.resolveAt)
    else (true, b, now + timeout)

/-- The buffer operations touching one buffer. -/
inductive BufOp
  | write (offset size cmdId : Nat)
  | barrier (access offset size flags cmdId : Nat)
  | flush (offset size : Nat)
  | complete (cmdId : Nat)
  | poll (now timeout : Nat)

/-- One buffer step. -/
def bufStep (b : pl_buf_vk) : BufOp → pl_buf_vk
  | BufOp.write o s i => vk_buf_write b o s i
  | BufOp.barrier a o s f i => vk_buf_barrier b a o s f i
  | BufOp.flush o s => vk_buf_flush b o s
  | BufOp.complete i => buf_write_complete b i
  | BufOp.poll now timeout => (vk_buf_poll b now timeout).2.1

/-- A freshly created buffer: no queued writes, nothing to flush. -/
def bufInit : pl_buf_vk :=
  { rc := 1, writes := 0, pending := [], current_access := 0, exported := false,
    needs_flush := false, flushRanges := [], sig := none, resolveAt := 0 }

/-- A sample command for concrete instantiations. -/
def demoCmd : vk_cmd :=
  { id := 0, queue := queue_type.COMPUTE, touched := [7] }

/-- A sample device state whose recording slot holds `demoCmd`. -/
def demoVk : pl_vk :=
  { cmd := some demoCmd,
    statuses := setStatus (fun _ => CmdStatus.discarded) 0 CmdStatus.recording,
    nextCmd := 1,
    resSig := fun _ => none,
    nextSig := 0,
    queued := [] }

/-- A sample texture with an outstanding signal resolving at hardware time
10 and contents marked invalidatable. -/
def demoTex : pl_tex_vk :=
  { rc := 1, held := false, may_invalidate := true, current_layout := 3,
    current_access := 5, qf := 0, sig := some 0, resolveAt := 10,
    memReleased := false, ext_sync := none }

/-- A sample buffer with an outstanding signal resolving at hardware time
10 and one range pending a flush. -/
def demoBuf : pl_buf_vk :=
  { rc := 1, writes := 1, pending := [4], current_access := 0,
    exported := false, needs_flush := true, flushRanges := [(0, 100)],
    sig := some 0, resolveAt := 10 }

theorem setStatus_same (f : Nat → CmdStatus) (i : Nat) (st : CmdStatus) :
    setStatus f i st i = st := by
  simp [setStatus]

theorem setStatus_other (f : Nat → CmdStatus) (i : Nat) (st : CmdStatus) (j : Nat)
    (h : j ≠ i) : setStatus f i st j = f j := by
  simp [setStatus, h]

theorem wf_of_closed (s s' : pl_vk) (c : vk_cmd) (st : CmdStatus)
    (hcur : s.cmd = some c) (hwf : IssuerWF s) (hst : st ≠ CmdStatus.recording)
    (h1 : s'.statuses = setStatus s.statuses c.id st) (h2 : s'.cmd = none) :
    IssuerWF s' := by
  constructor
  · intro c' hc'
    rw [h2] at hc'
    exact absurd hc' (by simp)
  · intro i hi
    rw [h1] at hi
    by_cases hic : i = c.id
    · rw [hic, setStatus_same] at hi
      exact absurd hi hst
    · rw [setStatus_other _ _ _ _ hic] at hi
      obtain ⟨c', hc', hid⟩ := hwf.2 i hi
      rw [hcur] at hc'
      cases hc'
      exact absurd hid.symm hic

theorem wf_open (s : pl_vk) (qc : queue_type) (hcur : s.cmd = none)
    (hwf : IssuerWF s) : IssuerWF (openCmd s qc).1 := by
  constructor
  · intro c' hc'
    simp only [openCmd] at hc'
    cases hc'
    refine ⟨Nat.lt_succ_self _, ?_⟩
    simp [openCmd, setStatus_same]
  · intro i hi
    simp only [openCmd] at hi ⊢
    by_cases hic : i = s.nextCmd
    · subst hic
      exact ⟨_, rfl, rfl⟩
    · rw [setStatus_other _ _ _ _ hic] at hi
      obtain ⟨c', hc', _⟩ := hwf.2 i hi
      rw [hcur] at hc'
      exact absurd hc' (by simp)

theorem end_cmd_cmd_none (s : pl_vk) (c : vk_cmd) (b : Bool) (h : s.cmd = some c) :
    (_end_cmd s b).cmd = none := by
  cases b <;> simp [_end_cmd, h]

theorem wf_end (s : pl_vk) (b : Bool) (hwf : IssuerWF s) : IssuerWF (_end_cmd s b) := by
  cases hcmd : s.cmd with
  | none => simpa [_end_cmd, hcmd] using hwf
  | some c =>
    cases b with
    | true =>
      refine wf_of_closed s _ c CmdStatus.submitted hcmd hwf (by simp) ?_ ?_ <;>
        simp [_end_cmd, hcmd]
    | false =>
      refine wf_of_closed s _ c CmdStatus.discarded hcmd hwf (by simp) ?_ ?_ <;>
        simp [_end_cmd, hcmd]

theorem wf_steal (s : pl_vk) (hwf : IssuerWF s) : IssuerWF (pl_vk_steal_cmd s).1 := by
  cases hcmd : s.cmd with
  | none => simpa [pl_vk_steal_cmd, hcmd] using hwf
  | some c =>
    refine wf_of_closed s _ c CmdStatus.stolen hcmd hwf (by simp) ?_ ?_ <;>
      simp [pl_vk_steal_cmd, hcmd]

theorem wf_begin (s : pl_vk) (qc : queue_type) (hwf : IssuerWF s) :
    IssuerWF (_begin_cmd s qc).1 := by
  cases hcmd : s.cmd with
  | none =>
    simp only [_begin_cmd, hcmd]
    exact wf_open s qc hcmd hwf
  | some c =>
    simp only [_begin_cmd, hcmd]
    by_cases hq : queueMatches qc c.queue
    · simpa [hq] using hwf
    · simp only [hq, if_false, Bool.false_eq_true]
      exact wf_open _ qc (end_cmd_cmd_none s c true hcmd) (wf_end s true hwf)

theorem wf_touch (s : pl_vk) (r : Nat) (hwf : IssuerWF s) :
    IssuerWF (issuerStep s (IssuerOp.touch r)) := by
  cases hcmd : s.cmd with
  | none => simpa [issuerStep, hcmd] using hwf
  | some c =>
    constructor
    · intro c' hc'
      simp only [issuerStep, hcmd] at hc'
      cases hc'
      simpa [issuerStep, hcmd] using hwf.1 c hcmd
    · intro i hi
      simp only [issuerStep, hcmd] at hi ⊢
      obtain ⟨c', hc', hid⟩ := hwf.2 i hi
      rw [hcmd] at hc'
      cases hc'
      exact ⟨_, rfl, hid⟩

theorem wf_step (s : pl_vk) (op : IssuerOp) (hwf : IssuerWF s) :
    IssuerWF (issuerStep s op) := by
  cases op with
  | begin qc => exact wf_begin s qc hwf
  | endRec b => exact wf_end s b hwf
  | steal => exact wf_steal s hwf
  | touch r => exact wf_touch s r hwf

theorem wf_run (ops : List IssuerOp) (s : pl_vk) (hwf : IssuerWF s) :
    IssuerWF (ops.foldl issuerStep s) := by
  induction ops generalizing s with
  | nil => exact hwf
  | cons op ops ih => exact ih _ (wf_step s op hwf)

theorem wf_init : IssuerWF pl_vk_init := by
  constructor
  · intro c hc
    exact absurd hc (by simp [pl_vk_init])
  · intro i hi
    exact absurd hi (by simp [pl_vk_init])

/-- C1: for every device, at most one command is in the "currently recording"
state after any sequence of (lock-serialized) begin/end/steal/touch
operations starting from device creation: the single recording slot of
`struct pl_vk` is exclusively owned, and every operation preserves the
single-recorder invariant. -/
theorem single_recording_command (ops : List IssuerOp) :
    AtMostOneRecording (ops.foldl issuerStep pl_vk_init) := by
  have hwf := wf_run ops pl_vk_init wf_init
  intro i j hi hj
  obtain ⟨c, hc, hci⟩ := hwf.2 i hi
  obtain ⟨c', hc', hcj⟩ := hwf.2 j hj
  rw [hc] at hc'
  cases hc'
  rw [← hci, ← hcj]

/-- C3: `begin(queueClass, ...)` returns the currently-recording command when
its queue class matches the request (or the request is ANY) with zero
submit-and-reopen boundaries; on a queue-class mismatch it produces exactly
one boundary — the current command is submitted to its bound queue and
exactly one new recording command is opened on a queue chosen for the
requested class; with no current command it opens a new one with zero
boundaries. -/
theorem begin_cmd_spec (s : pl_vk) (qc : queue_type) :
    (∀ c, s.cmd = some c → queueMatches qc c.queue = true →
      _begin_cmd s qc = (s, c, 0)) ∧
    (∀ c, s.cmd = some c → queueMatches qc c.queue = false → c.id < s.nextCmd →
      (_begin_cmd s qc).2.2 = 1 ∧
      (_begin_cmd s qc).1.statuses c.id = CmdStatus.submitted ∧
      (_begin_cmd s qc).1.queued = s.queued ++ [(c.id, c.queue)] ∧
      (_begin_cmd s qc).2.1.queue = chooseQueue qc ∧
      (_begin_cmd s qc).1.cmd = some (_begin_cmd s qc).2.1 ∧
      (_begin_cmd s qc).1.statuses (_begin_cmd s qc).2.1.id = CmdStatus.recording) ∧
    (s.cmd = none →
      (_begin_cmd s qc).2.2 = 0 ∧
      (_begin_cmd s qc).2.1.queue = chooseQueue qc ∧
      (_begin_cmd s qc).1.cmd = some (_begin_cmd s qc).2.1) := by
  refine ⟨?_, ?_, ?_⟩
  · intro c hc hq
    simp [_begin_cmd, hc, hq]
  · intro c hc hq hid
    have hne : c.id ≠ s.nextCmd := Nat.ne_of_lt hid
    refine ⟨?_, ?_, ?_, ?_, ?_, ?_⟩ <;>
      simp only [_begin_cmd, openCmd, _end_cmd, hc, hq, Bool.false_eq_true,
        if_false, if_true]
    · rw [setStatus_other _ _ _ _ hne, setStatus_same]
    · rw [setStatus_same]
  · intro hc
    simp [_begin_cmd, openCmd, hc]

/-- Concrete instance of `begin_cmd_spec`: on `demoVk` (recording a COMPUTE
command) a COMPUTE begin returns the same command with zero boundaries and a
TRANSFER begin produces exactly one boundary. -/
theorem begin_cmd_spec_witness :
    _begin_cmd demoVk queue_type.COMPUTE = (demoVk, demoCmd, 0) ∧
    (_begin_cmd demoVk queue_type.TRANSFER).2.2 = 1 ∧
    (_begin_cmd demoVk queue_type.TRANSFER).1.statuses 0 = CmdStatus.submitted := by
  have h1 := begin_cmd_spec demoVk queue_type.COMPUTE
  have h2 := begin_cmd_spec demoVk queue_type.TRANSFER
  have hm := h2.2.1 demoCmd rfl rfl (by decide)
  exact ⟨h1.1 demoCmd rfl rfl, hm.1, hm.2.1⟩

/-- C5: `end(cmd, submit)`: with `submit = true` recording is finalized — the
command's status becomes submitted, it is appended to its bound hardware
queue's submission list, and a signal is attached to every resource it
touched; with `submit = false` the command is discarded: no submission, no
signal attachment, and the signal table is left unchanged. -/
theorem end_cmd_spec (s : pl_vk) (c : vk_cmd) (h : s.cmd = some c) :
    (_end_cmd s true).statuses c.id = CmdStatus.submitted ∧
    (_end_cmd s true).queued = s.queued ++ [(c.id, c.queue)] ∧
    (_end_cmd s true).cmd = none ∧
    (∀ r, r ∈ c.touched → (_end_cmd s true).resSig r = some s.nextSig) ∧
    (_end_cmd s false).statuses c.id = CmdStatus.discarded ∧
    (_end_cmd s false).queued = s.queued ∧
    (_end_cmd s false).resSig = s.resSig ∧
    (_end_cmd s false).nextSig = s.nextSig ∧
    (_end_cmd s false).cmd = none := by
  refine ⟨?_, ?_, ?_, ?_, ?_, ?_, ?_, ?_, ?_⟩ <;>
    simp only [_end_cmd, h, if_true, Bool.false_eq_true, if_false]
  · exact setStatus_same _ _ _
  · intro r hr
    simp [hr]
  · exact setStatus_same _ _ _

/-- Concrete instance of `end_cmd_spec` on `demoVk`: submitting attaches
signal 0 to touched resource 7 and queues command 0 on the COMPUTE queue;
discarding leaves the submission list and the signal table untouched. -/
theorem end_cmd_spec_witness :
    (_end_cmd demoVk true).resSig 7 = some 0 ∧
    (_end_cmd demoVk true).queued = [(0, queue_type.COMPUTE)] ∧
    (_end_cmd demoVk false).queued = [] ∧
    (_end_cmd demoVk false).resSig = demoVk.resSig := by
  have h := end_cmd_spec demoVk demoCmd rfl
  refine ⟨h.2.2.2.1 7 (by decide), ?_, ?_, h.2.2.2.2.2.2.1⟩
  · rw [h.2.1]
    rfl
  · rw [h.2.2.2.2.2.1]
    rfl

/-- Concrete instance of `single_recording_command`: after a GRAPHICS begin
followed by a COMPUTE begin, command 1 is the sole recording command. -/
theorem single_recording_command_witness : (1 : Nat) = 1 :=
  single_recording_command
    [IssuerOp.begin queue_type.GRAPHICS, IssuerOp.begin queue_type.COMPUTE]
    1 1 rfl rfl

theorem vk_buf_barrier_access (b : pl_buf_vk) (a o sz fl ci : Nat) :
    (vk_buf_barrier b a o sz fl ci).current_access = a := by
  simp only [vk_buf_barrier]
  split <;> rfl

theorem vk_buf_barrier_flushRanges (b : pl_buf_vk) (a o sz fl ci : Nat) :
    (vk_buf_barrier b a o sz fl ci).flushRanges =
      (if b.needs_flush then vk_buf_flush b o sz else b).flushRanges := by
  simp only [vk_buf_barrier]
  split <;> rfl

/-- C2: immediately after each operation of any sequence of barrier requests
on one resource, the state record's current layout/access/queue-owner equals
the required state that operation declared: the record is updated with the
recorded barrier, before GPU completion, so no later operation reconciles
against a stale state.  Stated for textures (layout, access and queue owner)
and buffers (access). -/
theorem barrier_state_tracking (t : pl_tex_vk) (rs : List TexReq) (r : TexReq)
    (b : pl_buf_vk) (ops : List BufOp) (a o sz fl ci : Nat) :
    (applyTexReqs t (rs ++ [r])).current_layout = r.layout ∧
    (applyTexReqs t (rs ++ [r])).current_access = r.access ∧
    (applyTexReqs t (rs ++ [r])).qf = r.qf ∧
    ((ops ++ [BufOp.barrier a o sz fl ci]).foldl bufStep b).current_access = a := by
  refine ⟨?_, ?_, ?_, ?_⟩ <;>
    simp only [applyTexReqs, List.foldl_append, List.foldl_cons, List.foldl_nil,
      bufStep]
  · rfl
  · rfl
  · rfl
  · exact vk_buf_barrier_access _ a o sz fl ci

/-- C7: when discard is requested (the texture was invalidated, so contents
are known not to matter), the emitted barrier treats the prior contents as
undefined (`oldLayout = VK_IMAGE_LAYOUT_UNDEFINED`), so the transition skips
preserving the old contents; the discard permission is consumed by the
barrier. -/
theorem tex_barrier_discard (t : pl_tex_vk) (a l q : Nat)
    (h : t.may_invalidate = true) :
    (vk_tex_invalidate t).may_invalidate = true ∧
    (vk_tex_barrier t a l q).2 = some
      { srcAccess := t.current_access, dstAccess := a,
        oldLayout := VK_IMAGE_LAYOUT_UNDEFINED, newLayout := l,
        srcQf := t.qf, dstQf := q } ∧
    (vk_tex_barrier t a l q).1.may_invalidate = false := by
  refine ⟨rfl, ?_, rfl⟩
  simp [vk_tex_barrier, h]

/-- Concrete instance of `tex_barrier_discard`: a barrier on the invalidated
`demoTex` emits a transition from the undefined layout. -/
theorem tex_barrier_discard_witness :
    (vk_tex_barrier demoTex 9 4 0).2 = some
      { srcAccess := 5, dstAccess := 9, oldLayout := VK_IMAGE_LAYOUT_UNDEFINED,
        newLayout := 4, srcQf := 0, dstQf := 0 } :=
  (tex_barrier_discard demoTex 9 4 0 rfl).2.1

/-- C8: export fails, returning failure and leaving the state record
unchanged, whenever the texture is already exported or currently held; a
successful export implies the texture was neither exported nor held, and
records the sync object. -/
theorem tex_export_spec (t : pl_tex_vk) (sync : Nat) :
    (t.ext_sync.isSome = true ∨ t.held = true →
      vk_tex_export t sync = (false, t)) ∧
    ((vk_tex_export t sync).1 = true →
      t.ext_sync = none ∧ t.held = false ∧
      (vk_tex_export t sync).2.ext_sync = some sync) ∧
    (t.ext_sync = none → t.held = false →
      vk_tex_export t sync = (true, { t with ext_sync := some sync })) := by
  refine ⟨?_, ?_, ?_⟩
  · intro h
    rcases h with h | h <;> simp [vk_tex_export, h]
  · intro h
    by_cases h1 : t.ext_sync.isSome = true
    · simp [vk_tex_export, h1] at h
    · by_cases h2 : t.held = true
      · simp [vk_tex_export, h1, h2] at h
      · refine ⟨Option.not_isSome_iff_eq_none.mp h1, by simpa using h2, ?_⟩
        simp [vk_tex_export, h1, h2]
  · intro h1 h2
    simp [vk_tex_export, h1, h2]

/-- Concrete instance of `tex_export_spec`: exporting `demoTex` succeeds, and
a second export of the already-exported result fails leaving it unchanged. -/
theorem tex_export_spec_witness :
    vk_tex_export demoTex 1 = (true, { demoTex with ext_sync := some 1 }) ∧
    vk_tex_export (vk_tex_export demoTex 1).2 2 =
      (false, (vk_tex_export demoTex 1).2) := by
  have h1 := tex_export_spec demoTex 1
  have h2 := tex_export_spec (vk_tex_export demoTex 1).2 2
  exact ⟨h1.2.2 rfl rfl, h2.1 (Or.inl (by rfl))⟩

theorem texLifeInv_step (t : pl_tex_vk) (op : TexLifeOp) (h : TexLifeInv t) :
    TexLifeInv (texLifeStep t op) := by
  cases op with
  | deref =>
    simp only [texLifeStep, vk_tex_deref]
    by_cases hrc : t.rc ≤ 1
    · cases hsig : t.sig with
      | some s0 =>
        simp only [hrc, if_true, hsig]
        intro hrel
        have := (h hrel).2
        rw [hsig] at this
        exact absurd this (by simp)
      | none =>
        simp only [hrc, if_true, hsig]
        intro _
        exact ⟨rfl, rfl⟩
    · simp only [hrc, if_false]
      intro hrel
      exact absurd (h hrel).1 (by omega)
  | poll now timeout =>
    cases hsig : t.sig with
    | none => simpa [texLifeStep, vk_tex_poll, hsig] using h
    | some s0 =>
      simp only [texLifeStep, vk_tex_poll, hsig]
      by_cases hres : t.resolveAt ≤ now + timeout
      · simp only [hres, if_true]
        intro hrel
        have hrel' : (t.memReleased || (t.rc == 0)) = true := hrel
        cases hmb : t.memReleased with
        | true =>
          have := (h hmb).2
          rw [hsig] at this
          exact absurd this (by simp)
        | false =>
          rw [hmb, Bool.false_or] at hrel'
          exact ⟨by simpa using hrel', rfl⟩
      · simp only [hres, if_false]
        exact h

theorem texLifeInv_run (ops : List TexLifeOp) (t : pl_tex_vk) (h : TexLifeInv t) :
    TexLifeInv (ops.foldl texLifeStep t) := by
  induction ops generalizing t with
  | nil => exact h
  | cons op ops ih => exact ih _ (texLifeInv_step t op h)

/-- C4: a resource with outstanding in-flight work (non-null signal) is never
destroyed and its memory slice is never released until the signal is observed
resolved: along every operation sequence from creation, a released slice
implies refcount zero and no outstanding signal; a deref never releases the
slice while a signal is outstanding, a deref reaching zero with an
outstanding signal defers the release, and a poll releases the slice only
when it observes the signal resolved within its wait bound. -/
theorem tex_deferred_release (sig0 : Option Nat) (ra : Nat)
    (ops : List TexLifeOp) (t : pl_tex_vk) (now timeout : Nat) :
    TexLifeInv (ops.foldl texLifeStep (texLifeInit sig0 ra)) ∧
    (t.sig.isSome = true → t.memReleased = false →
      (vk_tex_deref t).memReleased = false) ∧
    (t.rc = 1 → t.sig.isSome = true →
      (vk_tex_deref t).rc = 0 ∧ (vk_tex_deref t).memReleased = t.memReleased) ∧
    (t.sig.isSome = true → t.memReleased = false →
      (vk_tex_poll t now timeout).2.1.memReleased = true →
      t.resolveAt ≤ now + timeout) := by
  refine ⟨?_, ?_, ?_, ?_⟩
  · refine texLifeInv_run ops _ ?_
    intro hrel
    exact absurd hrel (by simp [texLifeInit])
  · intro hs hm
    cases hsig : t.sig with
    | none => rw [hsig] at hs; exact absurd hs (by simp)
    | some s0 =>
      simp only [vk_tex_deref, hsig]
      by_cases hrc : t.rc ≤ 1 <;> simp [hrc, hm]
  · intro hrc hs
    cases hsig : t.sig with
    | none => rw [hsig] at hs; exact absurd hs (by simp)
    | some s0 =>
      constructor <;> simp [vk_tex_deref, hsig, hrc]
  · intro hs hm hrel
    cases hsig : t.sig with
    | none => rw [hsig] at hs; exact absurd hs (by simp)
    | some s0 =>
      by_cases hres : t.resolveAt ≤ now + timeout
      · exact hres
      · rw [show (vk_tex_poll t now timeout).2.1 = t by
            simp [vk_tex_poll, hsig, hres]] at hrel
        rw [hrel] at hm
        exact absurd hm (by simp)

/-- Concrete instance of `tex_deferred_release`: dereferencing `demoTex`
(one reference, outstanding signal) reaches refcount zero yet does not
release the memory slice. -/
theorem tex_deferred_release_witness :
    (vk_tex_deref demoTex).memReleased = false ∧ (vk_tex_deref demoTex).rc = 0 := by
  have h := tex_deferred_release (some 0) 10 [] demoTex 0 0
  exact ⟨h.2.1 rfl rfl, (h.2.2.1 rfl rfl).1⟩

/-- C6: poll with timeout 0 is a non-blocking pure state check: it reports
busy exactly when the attached signal has not resolved, repeated calls
before completion leave the state unchanged (no side effects), a call after
hardware completion reports ready, the wake instant of a zero-timeout poll
is the call instant, and any poll waits at most its timeout.  Stated for
both textures and buffers. -/
theorem poll_zero_spec (t : pl_tex_vk) (b : pl_buf_vk) (now timeout : Nat) :
    (∀ s0, t.sig = some s0 → now < t.resolveAt →
      vk_tex_poll t now 0 = (true, t, now)) ∧
    (t.resolveAt ≤ now → (vk_tex_poll t now 0).1 = false) ∧
    ((vk_tex_poll t now 0).2.2 = now) ∧
    ((vk_tex_poll t now timeout).2.2 ≤ now + timeout) ∧
    (∀ s0, b.sig = some s0 → now < b.resolveAt →
      vk_buf_poll b now 0 = (true, b, now)) ∧
    (b.resolveAt ≤ now → (vk_buf_poll b now 0).1 = false) ∧
    ((vk_buf_poll b now 0).2.2 = now) ∧
    ((vk_buf_poll b now timeout).2.2 ≤ now + timeout) := by
  refine ⟨?_, ?_, ?_, ?_, ?_, ?_, ?_, ?_⟩
  · intro s0 hs hlt
    have hres : ¬ t.resolveAt ≤ now := by omega
    simp [vk_tex_poll, hs, hres]
  · intro hle
    cases hs : t.sig with
    | none => simp [vk_tex_poll, hs]
    | some s0 => simp [vk_tex_poll, hs, hle]
  · cases hs : t.sig with
    | none => simp [vk_tex_poll, hs]
    | some s0 =>
      by_cases hres : t.resolveAt ≤ now
      · simp only [vk_tex_poll, hs, Nat.add_zero, hres, if_true]
        exact Nat.max_eq_left hres
      · simp [vk_tex_poll, hs, hres]
  · cases hs : t.sig with
    | none => simp [vk_tex_poll, hs]
    | some s0 =>
      by_cases hres : t.resolveAt ≤ now + timeout
      · simp only [vk_tex_poll, hs, hres, if_true]
        exact max_le (Nat.le_add_right _ _) hres
      · simp [vk_tex_poll, hs, hres]
  · intro s0 hs hlt
    have hres : ¬ b.resolveAt ≤ now := by omega
    simp [vk_buf_poll, hs, hres]
  · intro hle
    cases hs : b.sig with
    | none => simp [vk_buf_poll, hs]
    | some s0 => simp [vk_buf_poll, hs, hle]
  · cases hs : b.sig with
    | none => simp [vk_buf_poll, hs]
    | some s0 =>
      by_cases hres : b.resolveAt ≤ now
      · simp only [vk_buf_poll, hs, Nat.add_zero, hres, if_true]
        exact Nat.max_eq_left hres
      · simp [vk_buf_poll, hs, hres]
  · cases hs : b.sig with
    | none => simp [vk_buf_poll, hs]
    | some s0 =>
      by_cases hres : b.resolveAt ≤ now + timeout
      · simp only [vk_buf_poll, hs, hres, if_true]
        exact max_le (Nat.le_add_right _ _) hres
      · simp [vk_buf_poll, hs, hres]

/-- Concrete instance of `poll_zero_spec`: polling the busy `demoTex` at
instant 0 with timeout 0 reports busy without side effects, and polling
`demoBuf` at instant 20 (after its signal resolved at 10) reports ready. -/
theorem poll_zero_spec_witness :
    vk_tex_poll demoTex 0 0 = (true, demoTex, 0) ∧
    (vk_buf_poll demoBuf 20 0).1 = false := by
  have h1 := poll_zero_spec demoTex demoBuf 0 0
  have h2 := poll_zero_spec demoTex demoBuf 20 0
  exact ⟨h1.1 0 rfl (by decide), h2.2.2.2.2.2.1 (by decide)⟩

theorem bufWritesInv_step (b : pl_buf_vk) (op : BufOp)
    (h : b.writes = b.pending.length) :
    (bufStep b op).writes = (bufStep b op).pending.length := by
  cases op with
  | write o s i => simp [bufStep, vk_buf_write, h]
  | barrier a o s f i =>
    simp only [bufStep, vk_buf_barrier]
    split <;> split <;> simp [vk_buf_flush, h]
  | flush o s => simp [bufStep, vk_buf_flush, h]
  | complete i =>
    simp only [bufStep, buf_write_complete]
    by_cases hm : i ∈ b.pending
    · simp only [hm, if_true]
      rw [List.length_erase_of_mem hm, h]
    · simp [hm, h]
  | poll now timeout =>
    cases hs : b.sig with
    | none => simpa [bufStep, vk_buf_poll, hs] using h
    | some s0 =>
      simp only [bufStep, vk_buf_poll, hs]
      split <;> simpa using h

theorem bufWritesInv_run (ops : List BufOp) (b : pl_buf_vk)
    (h : b.writes = b.pending.length) :
    ((ops.foldl bufStep b).writes = (ops.foldl bufStep b).pending.length) := by
  induction ops generalizing b with
  | nil => exact h
  | cons op ops ih => exact ih _ (bufWritesInv_step b op h)

/-- C9: after every operation sequence from buffer creation, the `writes`
counter equals the number of queued but not yet completed write commands
targeting the buffer (incremented when a write command is queued by
`vk_buf_write` or a write-side `vk_buf_barrier`, decremented when that
command completes), and a buffer with `writes = 0` has no pending GPU
writes. -/
theorem buf_writes_counter (ops : List BufOp) :
    ((ops.foldl bufStep bufInit).writes =
      (ops.foldl bufStep bufInit).pending.length) ∧
    ((ops.foldl bufStep bufInit).writes = 0 →
      (ops.foldl bufStep bufInit).pending = []) := by
  have h := bufWritesInv_run ops bufInit rfl
  refine ⟨h, fun hz => ?_⟩
  rw [hz] at h
  exact List.length_eq_zero.mp h.symm

/-- Concrete instance of `buf_writes_counter`: queueing one write and
completing it leaves no pending write command. -/
theorem buf_writes_counter_witness :
    (([BufOp.write 0 100 4, BufOp.complete 4]).foldl bufStep bufInit).pending
      = [] :=
  (buf_writes_counter [BufOp.write 0 100 4, BufOp.complete 4]).2 (by decide)

/-- C10: buffer flush obligations are ranged, not whole-resource: flushing a
byte range removes no obligation of a range disjoint from it and invents no
new obligation; a host-visible `vk_buf_write` sets `needs_flush` and records
the written range; and a `vk_buf_barrier` over a range on a buffer with
`needs_flush` set flushes that range first, so no flush obligation
overlapping the consumed range survives into the GPU command. -/
theorem buf_ranged_flush (b : pl_buf_vk) (o sz a fl ci : Nat) (r : Nat × Nat) :
    (r ∈ b.flushRanges → rangesOverlap r (o, sz) = false →
      r ∈ (vk_buf_flush b o sz).flushRanges) ∧
    (∀ r', r' ∈ (vk_buf_flush b o sz).flushRanges → r' ∈ b.flushRanges) ∧
    ((vk_buf_write b o sz ci).needs_flush = true) ∧
    ((o, sz) ∈ (vk_buf_write b o sz ci).flushRanges) ∧
    (b.needs_flush = true →
      ∀ r', r' ∈ (vk_buf_barrier b a o sz fl ci).flushRanges →
        rangesOverlap r' (o, sz) = false) := by
  refine ⟨?_, ?_, rfl, ?_, ?_⟩
  · intro hm hno
    simp only [vk_buf_flush]
    rw [List.mem_filter]
    exact ⟨hm, by simp [hno]⟩
  · intro r' hm
    simp only [vk_buf_flush] at hm
    exact (List.mem_filter.mp hm).1
  · simp [vk_buf_write]
  · intro hf r' hm
    rw [vk_buf_barrier_flushRanges] at hm
    rw [hf] at hm
    simp only [if_true, vk_buf_flush] at hm
    have := (List.mem_filter.mp hm).2
    simpa using this

/-- Concrete instance of `buf_ranged_flush`: flushing the disjoint range
`[200, 250)` of `demoBuf` leaves the obligation for the written range
`[0, 100)` in place, a write marks `needs_flush`, and any obligation that
survives a barrier consuming `[200, 250)` is disjoint from that range. -/
theorem buf_ranged_flush_witness :
    (0, 100) ∈ (vk_buf_flush demoBuf 200 50).flushRanges ∧
    (vk_buf_write demoBuf 0 100 9).needs_flush = true ∧
    rangesOverlap (0, 100) (200, 50) = false := by
  have h := buf_ranged_flush demoBuf 200 50 3 1 9 (0, 100)
  exact ⟨h.1 (by decide) (by decide), h.2.2.1,
    h.2.2.2.2 rfl (0, 100) (by decide)⟩

end Libplacebo
